import Mathlib

/-!
Verification development for the photo-organiser pipeline
(`src/organise_photos.py`).

Shallow embedding conventions:
- Python `float` values are modelled as `Rat` (exact rationals); the
  claims under study do not depend on binary floating-point rounding.
- Python `dict[str, str]` (insertion ordered) is modelled as
  `List (String × String)` with first-key-wins lookup and
  update-in-place-or-append insertion, matching CPython dict semantics.
- External collaborators (the geopy distance function and the
  rate-limited reverse-geocoding callable) are parameters of the
  embedded functions, exactly as `reverse_func` is a parameter of
  `get_country_for_coords` in the source; a call that may raise is
  modelled by an `Option`/outcome type whose failure constructor
  corresponds to an exception being raised.
- Embedded functions are instrumented with booleans recording whether
  the proximity scan was reached and whether the external reverse call
  was made, so that claims of the form "no external call is made" are
  expressible; the instrumentation mirrors the control flow of the
  source and changes no computed value.
-/

/-- Python truthiness of an optional string: `None` and the empty string
are falsy, every other string is truthy. -/
def pyTruthy : Option String → Bool
  | none => false
  | some s => s ≠ ""

/-- Python `x or y` on optional strings: returns `x` when truthy, else `y`. -/
def pyOr (a b : Option String) : Option String :=
  if pyTruthy a then a else b

/-- First truthy element of a list of optional strings, else `none`. -/
def firstTruthy : List (Option String) → Option String
  | [] => none
  | o :: t => if pyTruthy o then o else firstTruthy t

/-- Decimal digits of a natural number (via `Nat.repr`). -/
def natDigits (n : Nat) : String := Nat.repr n

/-- Left-pad a digit string with zeros to width `w`, modelling Python
`0`-padded format specifiers such as `\x7by:04d\x7d`. -/
def padZeros (w : Nat) (s : String) : String :=
  String.mk (List.replicate (w - s.length) '0') ++ s

/-- Python `f"\x7bn:04d\x7d"` for a natural number. -/
def pad4 (n : Nat) : String := padZeros 4 (natDigits n)

/-- Python `f"\x7bn:02d\x7d"` for a natural number. -/
def pad2 (n : Nat) : String := padZeros 2 (natDigits n)

/-- Python `f"\x7bx:.6f\x7d"`: fixed-point rendering with six decimal
places.  The magnitude is rounded at the sixth decimal, ties to even as
Python float formatting does; a negative input keeps its sign (Python
renders `-0.000000` for tiny negative values).  The computation is
carried out on the numerator and denominator with integer arithmetic:
the magnitude is `x.num.natAbs / x.den`, so `scaled` below is the
half-even rounding of `magnitude * 10^6`. -/
def fmt6 (x : Rat) : String :=
  let num6 : Nat := x.num.natAbs * 1000000
  let q : Nat := num6 / x.den
  let r : Nat := num6 % x.den
  let scaled : Nat :=
    if 2 * r < x.den then q
    else if x.den < 2 * r then q + 1
    else if q % 2 = 0 then q else q + 1
  (if x.num < 0 then "-" else "") ++
    natDigits (scaled / 1000000) ++ "." ++ padZeros 6 (natDigits (scaled % 1000000))

/-- Cache key built in `get_country_for_coords`:
`key = f"\x7blat:.6f\x7d,\x7blon:.6f\x7d"`. -/
def fmtCoordKey (lat lon : Rat) : String := fmt6 lat ++ "," ++ fmt6 lon

/-- All characters of the string are decimal digits and there is at
least one of them. -/
def allDigits (cs : List Char) : Bool :=
  cs ≠ [] && cs.all Char.isDigit

/-- Value of a list of decimal digit characters. -/
def digitsVal (cs : List Char) : Nat :=
  cs.foldl (fun acc c => acc * 10 + (c.toNat - 48)) 0

/-- Model of Python `float()` restricted to plain decimal literals
(optional sign, integer digits, optional fractional part), the only
shapes that occur in cache keys written by this program.  Exponents,
`inf`/`nan` and surrounding whitespace are outside the modelled subset;
on any other input the Python call raises, modelled as `none`. -/
def parseFloat (s : String) : Option Rat :=
  let cs := s.data
  let (sign, rest) :=
    match cs with
    | '-' :: t => ((-1 : Int), t)
    | '+' :: t => ((1 : Int), t)
    | t => ((1 : Int), t)
  let intPart := rest.takeWhile Char.isDigit
  let afterInt := rest.dropWhile Char.isDigit
  match afterInt with
  | [] =>
    if allDigits intPart then some (mkRat (sign * (digitsVal intPart : Int)) 1)
    else none
  | '.' :: fracCs =>
    if fracCs.all Char.isDigit ∧ (intPart ≠ [] ∨ fracCs ≠ []) then
      some (mkRat
        (sign * ((digitsVal intPart : Int) * (10 ^ fracCs.length : Nat) +
          (digitsVal fracCs : Int)))
        (10 ^ fracCs.length))
    else none
  | _ => none

/-- Split a character list at every occurrence of `sep`, keeping empty
parts, as Python `str.split` with a one-character separator does. -/
def splitOnChar (sep : Char) : List Char → List (List Char)
  | [] => [[]]
  | c :: t =>
    let r := splitOnChar sep t
    if c = sep then [] :: r
    else
      match r with
      | h :: t2 => (c :: h) :: t2
      | [] => [[c]]

/-- Parse one cache key back into a coordinate, as the proximity loop in
`get_country_for_coords` does: `k.split` at commas must give exactly two
parts and both must parse as floats; any failure is caught and the entry
is skipped (`none`). -/
def parseKey (k : String) : Option (Rat × Rat) :=
  match (splitOnChar ',' k.data).map String.mk with
  | [a, b] =>
    match parseFloat a, parseFloat b with
    | some la, some lo => some (la, lo)
    | _, _ => none
  | _ => none

/-- The geocode cache: a Python `dict[str, str]` as an insertion-ordered
association list. -/
abbrev Cache := List (String × String)

/-- Lookup in the cache dictionary (`key in cache` / `cache[key]`). -/
def dictGet : Cache → String → Option String
  | [], _ => none
  | (k0, v0) :: t, k => if k0 = k then some v0 else dictGet t k

/-- Assignment `cache[key] = v` on a Python dict: updates the value in
place when the key exists (keeping its position), else appends. -/
def dictInsert : Cache → String → String → Cache
  | [], k, v => [(k, v)]
  | (k0, v0) :: t, k, v =>
    if k0 = k then (k0, v) :: t else (k0, v0) :: dictInsert t k v

/-- The values of the cache (`cache.values()`). -/
def cacheValues (c : Cache) : List String := c.map Prod.snd

/-- Source constant `MAX_CACHE_PROXIMITY_ENTRIES`. -/
def MAX_CACHE_PROXIMITY_ENTRIES : Nat := 100

/-- The slice `cache_items` sliced to the final MAX_CACHE_PROXIMITY_ENTRIES items guarded by the
length test, i.e. the most recently inserted 100 entries. -/
def recentEntries (c : Cache) : Cache :=
  if c.length > MAX_CACHE_PROXIMITY_ENTRIES then
    c.drop (c.length - MAX_CACHE_PROXIMITY_ENTRIES)
  else c

/-- Structured address of a reverse-geocoding response: the `address`
sub-dictionary of `loc.raw`, with the three keys the source consults.
A `none` field models an absent key (`dict.get` returning `None`). -/
structure Addr where
  country : Option String
  country_name : Option String
  country_code : Option String
deriving DecidableEq

/-- A geopy `Location`-like response object.  `raw` is `some a` when the
`raw` attribute exists, is truthy, is a dict and carries the address
sub-dictionary `a` (possibly with all keys absent, modelling
`raw.get` of the address key on a raw dict without that key); `raw = none`
models a missing, falsy or non-dict `raw`, which likewise leaves the
address dictionary empty.  `address` and `display_name` model
`getattr(loc, ..., None)`; `strForm` models `str(loc)`. -/
structure LocResult where
  raw : Option Addr
  address : Option String
  display_name : Option String
  strForm : String
deriving DecidableEq

/-- Outcome of calling the external rate-limited reverse function:
either the call raised an exception, or it returned a value (possibly
`None`). -/
inductive ReverseOutcome where
  | raised
  | returned (loc : Option LocResult)
deriving DecidableEq

/-- Label extraction from a reverse-geocoding response, lines 244-257 of
`organise_photos.py`: structured `country`/`country_name`/`country_code`
keys first (skipping falsy values), then the `address` attribute, then
`display_name`, then `str(loc)` when `loc` is not `None`, and finally
`country or "Unknown"`. -/
def extractCountry (loc : Option LocResult) : String :=
  let country0 : Option String :=
    match loc with
    | some l =>
      match l.raw with
      | some addr => pyOr (pyOr addr.country addr.country_name) addr.country_code
      | none => none
    | none => none
  let country1 : Option String :=
    if pyTruthy country0 then country0
    else
      match loc with
      | some l => pyOr l.address l.display_name
      | none => none
  let country2 : Option String :=
    if pyTruthy country1 then country1
    else
      match loc with
      | some l => some l.strForm
      | none => country1
  match country2 with
  | some s => if s = "" then "Unknown" else s
  | none => "Unknown"

/-- The whole `try` block around the external call: an exception
anywhere inside it degrades to `"Unknown"`; otherwise the label is
extracted from the returned location. -/
def resolveResponse : ReverseOutcome → String
  | ReverseOutcome.raised => "Unknown"
  | ReverseOutcome.returned loc => extractCountry loc

/-- Guarded cache write, lines 261-265: only non-empty labels different
from the `"Unknown"` sentinel are stored (`if country and country != "Unknown"`). -/
def cacheStore (cache : Cache) (key label : String) : Cache :=
  if label ≠ "" ∧ label ≠ "Unknown" then dictInsert cache key label else cache

/-- A distance oracle modelling `geopy.distance.distance(a, b).km`:
`none` models the call raising (caught by the loop, entry skipped). -/
abbrev DistFn := Rat × Rat → Rat × Rat → Option Rat

/-- One iteration of the proximity loop body for entry `(k, v)`:
key-parse failure or a distance exception skips the entry; a hit needs
distance at most 20 km and a truthy label different from `"Unknown"`. -/
def entryNearby (dist : DistFn) (lat lon : Rat) (k v : String) : Option String :=
  match parseKey k with
  | none => none
  | some (clat, clon) =>
    match dist (lat, lon) (clat, clon) with
    | none => none
    | some d => if d ≤ 20 ∧ v ≠ "" ∧ v ≠ "Unknown" then some v else none

/-- The proximity loop: first entry (in insertion order) of the scanned
slice that yields a hit. -/
def findNearby (dist : DistFn) (lat lon : Rat) : Cache → Option String
  | [] => none
  | (k, v) :: t =>
    match entryNearby dist lat lon k v with
    | some r => some r
    | none => findNearby dist lat lon t

/-- Result of `get_country_for_coords`, instrumented with the updated
cache and with flags recording whether the proximity scan was reached
and whether the external reverse call was made. -/
structure ResolveResult where
  country : String
  cache : Cache
  usedProximity : Bool
  calledExternal : Bool
deriving DecidableEq

/-- Embedding of `get_country_for_coords(lat, lon, reverse_func, cache)`
(lines 206-266).  The distance oracle and the reverse function are the
two external collaborators; the returned structure carries the possibly
updated cache. -/
def get_country_for_coords (dist : DistFn) (lat lon : Rat)
    (reverse : Rat × Rat → ReverseOutcome) (cache : Cache) : ResolveResult :=
  let key := fmtCoordKey lat lon
  match dictGet cache key with
  | some v => ⟨v, cache, false, false⟩
  | none =>
    match findNearby dist lat lon (recentEntries cache) with
    | some v => ⟨v, cache, true, false⟩
    | none =>
      let country := resolveResponse (reverse (lat, lon))
      ⟨country, cacheStore cache key country, true, true⟩

/-- One pipeline resolution step acting on the cache: the query carries
its coordinate and the outcome the external reverse call would produce
for it. -/
def resolveStep (dist : DistFn) (cache : Cache)
    (q : (Rat × Rat) × ReverseOutcome) : Cache :=
  (get_country_for_coords dist q.1.1 q.1.2 (fun _ => q.2) cache).cache

/-- Cache state after the resolver has processed a whole list of
queries, as the sequential pipeline does. -/
def resolveAll (dist : DistFn) (qs : List ((Rat × Rat) × ReverseOutcome))
    (cache : Cache) : Cache :=
  qs.foldl (resolveStep dist) cache

theorem dictGet_dictInsert_self (m : Cache) (k v : String) :
    dictGet (dictInsert m k v) k = some v := by
  induction m with
  | nil => simp [dictInsert, dictGet]
  | cons h t ih =>
    obtain ⟨k0, v0⟩ := h
    by_cases hk : k0 = k
    · simp [dictInsert, hk, dictGet]
    · simp [dictInsert, hk, dictGet, ih]

theorem mem_cacheValues_dictInsert (m : Cache) (k v w : String) :
    w ∈ cacheValues (dictInsert m k v) → w ∈ cacheValues m ∨ w = v := by
  induction m with
  | nil =>
    intro h
    simpa [dictInsert, cacheValues] using h
  | cons p t ih =>
    obtain ⟨k0, v0⟩ := p
    intro h
    by_cases hk : k0 = k
    · simp only [dictInsert, hk, eq_self_iff_true, if_true, cacheValues,
        List.map_cons, List.mem_cons] at h ⊢
      tauto
    · simp only [dictInsert, if_neg hk, cacheValues, List.map_cons,
        List.mem_cons] at h ⊢
      rcases h with h1 | h1
      · tauto
      · rcases ih h1 with h2 | h2 <;> tauto

/-- The resolver either leaves the cache unchanged or inserts one label
that is neither the sentinel nor empty. -/
theorem resolve_cache_cases (dist : DistFn) (lat lon : Rat)
    (rev : Rat × Rat → ReverseOutcome) (cache : Cache) :
    (get_country_for_coords dist lat lon rev cache).cache = cache ∨
    ∃ k c, c ≠ "Unknown" ∧ c ≠ "" ∧
      (get_country_for_coords dist lat lon rev cache).cache = dictInsert cache k c := by
  unfold get_country_for_coords
  cases hg : dictGet cache (fmtCoordKey lat lon) with
  | some v => simp [hg]
  | none =>
    cases hn : findNearby dist lat lon (recentEntries cache) with
    | some v => simp [hg, hn]
    | none =>
      simp only [hg, hn]
      unfold cacheStore
      by_cases hc : resolveResponse (rev (lat, lon)) ≠ "" ∧
          resolveResponse (rev (lat, lon)) ≠ "Unknown"
      · exact Or.inr ⟨fmtCoordKey lat lon, resolveResponse (rev (lat, lon)),
          hc.2, hc.1, by simp [if_pos hc]⟩
      · simp [if_neg hc]

theorem resolveStep_preserves (dist : DistFn) (cache : Cache)
    (q : (Rat × Rat) × ReverseOutcome)
    (h : "Unknown" ∉ cacheValues cache) :
    "Unknown" ∉ cacheValues (resolveStep dist cache q) := by
  unfold resolveStep
  rcases resolve_cache_cases dist q.1.1 q.1.2 (fun _ => q.2) cache with hc | ⟨k, c, hcu, _, hc⟩
  · rw [hc]; exact h
  · rw [hc]
    intro hmem
    rcases mem_cacheValues_dictInsert cache k c "Unknown" hmem with hm | hm
    · exact h hm
    · exact hcu hm.symm

theorem resolveAll_preserves (dist : DistFn)
    (qs : List ((Rat × Rat) × ReverseOutcome)) (cache : Cache)
    (h : "Unknown" ∉ cacheValues cache) :
    "Unknown" ∉ cacheValues (resolveAll dist qs cache) := by
  induction qs generalizing cache with
  | nil => exact h
  | cons q t ih =>
    exact ih (resolveStep dist cache q) (resolveStep_preserves dist cache q h)

/-- C3 — Sentinel-exclusion invariant: starting from any cache without
the `"Unknown"` sentinel among its values, no sequence of resolver runs
ever makes `"Unknown"` appear as a cache value (so it is never in the
persisted cache, which `save_cache` writes verbatim); moreover any
single resolution whose result degrades to `"Unknown"` leaves the cache
unchanged. -/
theorem unknown_never_cached (dist : DistFn)
    (qs : List ((Rat × Rat) × ReverseOutcome)) (cache : Cache)
    (h : "Unknown" ∉ cacheValues cache) :
    "Unknown" ∉ cacheValues (resolveAll dist qs cache) ∧
    ∀ (lat lon : Rat) (rev : Rat × Rat → ReverseOutcome),
      (get_country_for_coords dist lat lon rev cache).country = "Unknown" →
      (get_country_for_coords dist lat lon rev cache).cache = cache := by
  refine ⟨resolveAll_preserves dist qs cache h, ?_⟩
  intro lat lon rev hu
  unfold get_country_for_coords at hu ⊢
  cases hg : dictGet cache (fmtCoordKey lat lon) with
  | some v => simp [hg]
  | none =>
    cases hn : findNearby dist lat lon (recentEntries cache) with
    | some v => simp [hg, hn]
    | none =>
      simp only [hg, hn] at hu ⊢
      unfold cacheStore
      rw [if_neg]
      intro hc
      exact hc.2 hu

/-- Closed instance of `unknown_never_cached`: a failing external call
on an empty cache stores nothing. -/
theorem unknown_never_cached_witness :
    "Unknown" ∉ cacheValues (resolveAll (fun _ _ => some 1)
      [((0, 0), ReverseOutcome.raised)] []) :=
  (unknown_never_cached (fun _ _ => some 1)
    [((0, 0), ReverseOutcome.raised)] [] (by simp [cacheValues])).1

/-- C9 — exact-match bypasses the failure filter: whenever the
6-decimal-place key of the queried coordinate is present in the cache,
the stored value is returned unconditionally (even `"Unknown"` or the
empty string), with no proximity scan, no external call, and the cache
(including the entry itself) untouched. -/
theorem exact_match_returns_cached_value_unfiltered
    (dist : DistFn) (lat lon : Rat) (rev : Rat × Rat → ReverseOutcome)
    (cache : Cache) (v : String)
    (h : dictGet cache (fmtCoordKey lat lon) = some v) :
    get_country_for_coords dist lat lon rev cache = ⟨v, cache, false, false⟩ := by
  unfold get_country_for_coords
  simp [h]

/-- Closed instance of `exact_match_returns_cached_value_unfiltered` at
a cache whose stored value for the key is the `"Unknown"` sentinel. -/
theorem exact_match_returns_cached_value_unfiltered_witness :
    get_country_for_coords (fun _ _ => some 1) 0 0
      (fun _ => ReverseOutcome.raised) [("0.000000,0.000000", "Unknown")] =
      ⟨"Unknown", [("0.000000,0.000000", "Unknown")], false, false⟩ :=
  exact_match_returns_cached_value_unfiltered (fun _ _ => some 1) 0 0
    (fun _ => ReverseOutcome.raised) [("0.000000,0.000000", "Unknown")]
    "Unknown" (by decide)

/-- C4 counterexample — the claim quantifies over every label other than
the sentinel, but the empty string is such a label and the guarded store
(`if country and country != "Unknown"`) rejects it: after storing the
empty label for coordinate `(0, 0)` the cache is unchanged, and the
immediately following lookup does not return the stored label via the
exact-match path — it falls through to the external call and yields
`"Unknown"`. -/
theorem store_then_lookup_empty_label_cex :
    ("" : String) ≠ "Unknown" ∧
    cacheStore [] (fmtCoordKey 0 0) "" = [] ∧
    (get_country_for_coords (fun _ _ => none) 0 0 (fun _ => ReverseOutcome.raised)
      (cacheStore [] (fmtCoordKey 0 0) "")).country ≠ "" ∧
    (get_country_for_coords (fun _ _ => none) 0 0 (fun _ => ReverseOutcome.raised)
      (cacheStore [] (fmtCoordKey 0 0) "")).calledExternal = true := by
  refine ⟨by decide, by decide, by decide, by decide⟩

/-- C4 amended — store-then-lookup round trip for labels the guarded
store accepts: for every coordinate and every non-empty label different
from the sentinel, storing it under the 6-decimal-place key of the coordinate
and immediately looking the coordinate up returns exactly that label via
the exact-match path (no proximity scan, no external call, cache
untouched by the lookup). -/
theorem store_then_lookup_returns_label
    (dist : DistFn) (rev : Rat × Rat → ReverseOutcome) (lat lon : Rat)
    (cache : Cache) (label : String)
    (h1 : label ≠ "") (h2 : label ≠ "Unknown") :
    get_country_for_coords dist lat lon rev
        (cacheStore cache (fmtCoordKey lat lon) label) =
      ⟨label, cacheStore cache (fmtCoordKey lat lon) label, false, false⟩ := by
  have hget : dictGet (cacheStore cache (fmtCoordKey lat lon) label)
      (fmtCoordKey lat lon) = some label := by
    unfold cacheStore
    rw [if_pos ⟨h1, h2⟩]
    exact dictGet_dictInsert_self cache (fmtCoordKey lat lon) label
  unfold get_country_for_coords
  simp [hget]

/-- Closed instance of `store_then_lookup_returns_label`. -/
theorem store_then_lookup_returns_label_witness :
    get_country_for_coords (fun _ _ => some 1) (mkRat 488566 10000) (mkRat 23522 10000)
        (fun _ => ReverseOutcome.raised)
        (cacheStore [] (fmtCoordKey (mkRat 488566 10000) (mkRat 23522 10000)) "France") =
      ⟨"France",
        cacheStore [] (fmtCoordKey (mkRat 488566 10000) (mkRat 23522 10000)) "France",
        false, false⟩ :=
  store_then_lookup_returns_label (fun _ _ => some 1)
    (fun _ => ReverseOutcome.raised) (mkRat 488566 10000) (mkRat 23522 10000) [] "France"
    (by decide) (by decide)

theorem findNearby_append_none (dist : DistFn) (lat lon : Rat)
    (w1 l : Cache) (h : ∀ p ∈ w1, entryNearby dist lat lon p.1 p.2 = none) :
    findNearby dist lat lon (w1 ++ l) = findNearby dist lat lon l := by
  induction w1 with
  | nil => rfl
  | cons p t ih =>
    obtain ⟨k, v⟩ := p
    have hp : entryNearby dist lat lon k v = none := h (k, v) (List.mem_cons_self _ _)
    simp only [List.cons_append, findNearby, hp]
    exact ih fun q hq => h q (List.mem_cons_of_mem _ hq)

/-- C2 counterexample — the claim asserts that the lookup returns the
label of any nearby cached coordinate `b`, but the scan accepts the
first qualifying entry of the window in insertion order, not
necessarily the entry of `b`.  With the cache holding the keys of
`(0.01, 0)` (label `"A"`) and `(0.02, 0)` (label `"B"`), a query at
`(0, 0)` and a distance oracle putting every pair 1 km apart, all of the
hypotheses of the claim hold of the pair `(a, b) = ((0, 0), (0.02, 0))`
— distance within 20 km, `b` cached with a non-failure label, no exact
entry for `a`, `b` among the 100 most recent insertions — yet the lookup
returns `"A"`, not the label of `b`. -/
theorem proximity_lookup_not_label_of_b_cex :
    (fun _ _ => some 1 : DistFn) (0, 0) (mkRat 1 50, 0) = some 1 ∧ (1 : Rat) ≤ 20 ∧
    dictGet [("0.010000,0.000000", "A"), ("0.020000,0.000000", "B")]
      (fmtCoordKey (mkRat 1 50) 0) = some "B" ∧
    ("B" : String) ≠ "Unknown" ∧ ("B" : String) ≠ "" ∧
    dictGet [("0.010000,0.000000", "A"), ("0.020000,0.000000", "B")]
      (fmtCoordKey 0 0) = none ∧
    recentEntries [("0.010000,0.000000", "A"), ("0.020000,0.000000", "B")] =
      [("0.010000,0.000000", "A"), ("0.020000,0.000000", "B")] ∧
    (get_country_for_coords (fun _ _ => some 1) 0 0 (fun _ => ReverseOutcome.raised)
      [("0.010000,0.000000", "A"), ("0.020000,0.000000", "B")]).country = "A" ∧
    (get_country_for_coords (fun _ _ => some 1) 0 0 (fun _ => ReverseOutcome.raised)
      [("0.010000,0.000000", "A"), ("0.020000,0.000000", "B")]).country ≠ "B" := by
  refine ⟨rfl, by decide, by decide, by decide, by decide, by decide, by decide,
    by decide, by decide⟩

/-- C2 amended — proximity cache hit, first qualifying candidate: when
the queried coordinate has no exact entry and the entry of `b` lies in
the scanned window of the 100 most recently inserted entries, with every
entry before it in the window failing to qualify (key unparseable,
distance oracle failing, distance above 20 km, or an empty or sentinel
label), and `b` itself parses, lies within 20 km and has a non-failure
label, then the lookup returns the label of `b` with no external call
and the cache unchanged.  In particular, when `b` is the only
qualifying entry of the window, the original claim holds. -/
theorem proximity_first_qualifying_hit
    (dist : DistFn) (rev : Rat × Rat → ReverseOutcome) (lat lon : Rat)
    (cache w1 w2 : Cache) (kb vb : String) (cb : Rat × Rat) (d : Rat)
    (hexact : dictGet cache (fmtCoordKey lat lon) = none)
    (hwin : recentEntries cache = w1 ++ (kb, vb) :: w2)
    (hskip : ∀ p ∈ w1, entryNearby dist lat lon p.1 p.2 = none)
    (hparse : parseKey kb = some cb)
    (hdist : dist (lat, lon) cb = some d)
    (hle : d ≤ 20) (hv1 : vb ≠ "") (hv2 : vb ≠ "Unknown") :
    get_country_for_coords dist lat lon rev cache = ⟨vb, cache, true, false⟩ := by
  have hhit : entryNearby dist lat lon kb vb = some vb := by
    obtain ⟨clat, clon⟩ := cb
    unfold entryNearby
    rw [hparse]
    dsimp only
    rw [hdist]
    dsimp only
    rw [if_pos ⟨hle, hv1, hv2⟩]
  have hfind : findNearby dist lat lon (recentEntries cache) = some vb := by
    rw [hwin, findNearby_append_none dist lat lon w1 _ hskip]
    simp only [findNearby, hhit]
  unfold get_country_for_coords
  simp [hexact, hfind]

/-- Closed instance of `proximity_first_qualifying_hit`: a single nearby
cached entry is reused for a query with no exact entry. -/
theorem proximity_first_qualifying_hit_witness :
    get_country_for_coords (fun _ _ => some 1) 0 0 (fun _ => ReverseOutcome.raised)
      [("1.000000,2.000000", "B")] = ⟨"B", [("1.000000,2.000000", "B")], true, false⟩ :=
  proximity_first_qualifying_hit (fun _ _ => some 1) (fun _ => ReverseOutcome.raised)
    0 0 [("1.000000,2.000000", "B")] [] [] "1.000000,2.000000" "B" (1, 2) 1
    (by decide) (by decide) (by simp) (by decide) rfl (by decide) (by decide) (by decide)

/-- A parsed `datetime` value (the fields this program reads). -/
structure DateTime where
  year : Nat
  month : Nat
  day : Nat
  hour : Nat
  minute : Nat
  second : Nat
deriving DecidableEq

def isLeapYear (y : Nat) : Bool := (y % 4 = 0 ∧ y % 100 ≠ 0) ∨ y % 400 = 0

def daysInMonth (y m : Nat) : Nat :=
  if m = 2 then (if isLeapYear y then 29 else 28)
  else if m = 4 ∨ m = 6 ∨ m = 9 ∨ m = 11 then 30
  else 31

/-- One numeric field of an EXIF date string: all digits, at least one,
at most `maxLen` characters. -/
def parseField (cs : List Char) (maxLen : Nat) : Option Nat :=
  if cs ≠ [] ∧ cs.length ≤ maxLen ∧ cs.all Char.isDigit then some (digitsVal cs)
  else none

/-- Model of `datetime.strptime` with the format `%Y:%m:%d %H:%M:%S`: a four-digit
year, colon-separated numeric month/day and hour/minute/second fields of
at most two digits, with the range validation the `datetime` constructor
performs (month 1-12, day within the month, hour below 24, minute and
second below 60); any other input raises, modelled as `none`. -/
def parseExifDate (s : String) : Option DateTime :=
  match splitOnChar ' ' s.data with
  | [dpart, tpart] =>
    match splitOnChar ':' dpart, splitOnChar ':' tpart with
    | [ys, ms, ds], [hs, ns, ss] =>
      match parseField ys 4, parseField ms 2, parseField ds 2,
            parseField hs 2, parseField ns 2, parseField ss 2 with
      | some y, some mo, some da, some h, some mi, some se =>
        if ys.length = 4 ∧ 1 ≤ y ∧ 1 ≤ mo ∧ mo ≤ 12 ∧ 1 ≤ da ∧
            da ≤ daysInMonth y mo ∧ h ≤ 23 ∧ mi ≤ 59 ∧ se ≤ 59 then
          some ⟨y, mo, da, h, mi, se⟩
        else none
      | _, _, _, _, _, _ => none
    | _, _ => none
  | _ => none

/-- The EXIF tag mapping returned by `exifread.process_file`, restricted
to the tags this program reads.  A `none` field models an absent tag.
GPS magnitudes are lists of rational components, each a numerator and
denominator pair as in exifread. -/
structure ExifTags where
  dateTimeOriginal : Option String
  dateTimeDigitized : Option String
  imageDateTime : Option String
  gpsLatitude : Option (List (Int × Int))
  gpsLatitudeRef : Option String
  gpsLongitude : Option (List (Int × Int))
  gpsLongitudeRef : Option String
deriving DecidableEq

def emptyTags : ExifTags := ⟨none, none, none, none, none, none, none⟩

/-- Embedding of `_dms_to_decimal(dms, ref)`: needs at least three
components (an `IndexError` is caught, yielding `None`), raises on a
zero denominator (`ZeroDivisionError`, caught likewise), converts
degrees/minutes/seconds to decimal degrees and negates for the southern
and western hemisphere references. -/
def dms_to_decimal (dms : List (Int × Int)) (ref : String) : Option Rat :=
  match dms with
  | d :: m :: s :: _ =>
    if d.2 = 0 ∨ m.2 = 0 ∨ s.2 = 0 then none
    else
      let dec : Rat := (d.1 : Rat) / (d.2 : Rat) +
        (m.1 : Rat) / (m.2 : Rat) / 60 + (s.1 : Rat) / (s.2 : Rat) / 3600
      some (if ref = "S" ∨ ref = "W" then -dec else dec)
  | _ => none

/-- Outcomes the decoded-image collaborator can give for one file:
`exifTags = some t?` models the image carrying an embedded EXIF blob on
which `exifread` ran (with `t? = none` when that run raised, caught as
`tags = \x7b\x7d`); `exifTags = none` models no embedded blob, in which
case the JPEG re-encode-and-rescan path runs, with outcome
`reencodeTags` (`none` when saving or scanning raised). -/
structure PilImage where
  exifTags : Option (Option ExifTags)
  reencodeTags : Option ExifTags
deriving DecidableEq

/-- Outcome of `Image.open`: success, a failure of the kind the inner
handler catches (`UnidentifiedImageError` / `OSError`, which triggers
the raw byte-level fallback read), or any other exception (which only
the outer handler catches, leaving the tags empty). -/
inductive PilOpen where
  | opened (img : PilImage)
  | failRecognized
  | failOther
deriving DecidableEq

/-- Environment of one `extract_exif_date_and_gps(path, use_heif)`
call: the file-dependent inputs and the outcomes of each fallible
collaborator call the function can make. `rawRead` is the result of the
byte-level `exifread.process_file` on the original file (`none` when it
raises); `mtime` is `datetime.fromtimestamp(path.stat().st_mtime)`
(`none` when `stat` raises); `now` is `datetime.now()`. -/
structure ExtractEnv where
  suffix : String
  useHeif : Bool
  heifAvailable : Bool
  pilOpen : PilOpen
  rawRead : Option ExifTags
  mtime : Option DateTime
  now : DateTime
deriving DecidableEq

/-- Python `str.lower`, modelled character by character. -/
def lowerStr (s : String) : String := String.mk (s.data.map Char.toLower)

/-- The tag-acquisition phase of `extract_exif_date_and_gps` (lines
120-158): every failure branch ends with a tag mapping, empty in the
worst case, and no exception escapes. -/
def acquireTags (env : ExtractEnv) : ExifTags :=
  if (lowerStr env.suffix = ".heic" ∨ lowerStr env.suffix = ".heif") ∧
      env.heifAvailable ∧ env.useHeif then
    match env.pilOpen with
    | PilOpen.opened img =>
      match img.exifTags with
      | some (some t) => t
      | some none => emptyTags
      | none => img.reencodeTags.getD emptyTags
    | PilOpen.failRecognized => env.rawRead.getD emptyTags
    | PilOpen.failOther => emptyTags
  else env.rawRead.getD emptyTags

/-- The date-resolution loop (lines 160-169): first tag among
original/digitized/generic whose value parses wins; a present but
unparseable tag falls through to the next one. -/
def firstParsedDate (tags : ExifTags) : Option DateTime :=
  match tags.dateTimeOriginal.bind parseExifDate with
  | some d => some d
  | none =>
    match tags.dateTimeDigitized.bind parseExifDate with
    | some d => some d
    | none => tags.imageDateTime.bind parseExifDate

/-- Embedding of `extract_exif_date_and_gps` (lines 116-187): acquire
tags, resolve the date with the mtime and wall-clock fallbacks, and
resolve GPS only when both magnitude tags are present and both
conversions succeed. -/
def extract_exif_date_and_gps (env : ExtractEnv) : DateTime × Option (Rat × Rat) :=
  let tags := acquireTags env
  let date :=
    match firstParsedDate tags with
    | some d => d
    | none =>
      match env.mtime with
      | some t => t
      | none => env.now
  let gps :=
    match tags.gpsLatitude, tags.gpsLongitude with
    | some latv, some lonv =>
      match dms_to_decimal latv (tags.gpsLatitudeRef.getD "N"),
            dms_to_decimal lonv (tags.gpsLongitudeRef.getD "E") with
      | some la, some lo => some (la, lo)
      | _, _ => none
    | _, _ => none
  (date, gps)

/-- Every collaborator call that could contribute tags failed: the raw
byte-level read raised, and on the specialized-decode path the image
either failed to open or yielded no readable tags in either of the two
tag branches. -/
def allTagSourcesFail (env : ExtractEnv) : Prop :=
  env.rawRead = none ∧
  (match env.pilOpen with
   | PilOpen.opened img =>
     (img.exifTags = none ∨ img.exifTags = some none) ∧ img.reencodeTags = none
   | _ => True)

theorem acquireTags_allFail (env : ExtractEnv) (h : allTagSourcesFail env) :
    acquireTags env = emptyTags := by
  obtain ⟨h1, h2⟩ := h
  unfold acquireTags
  split
  · cases hp : env.pilOpen with
    | opened img =>
      rw [hp] at h2
      obtain ⟨he, hr⟩ := h2
      rcases he with he | he <;> simp [he, hr]
    | failRecognized => simp [h1]
    | failOther => rfl
  · simp [h1]

/-- C5 — extraction totality: the extractor is a total function of its
environment (it returns a timestamp/optional-coordinate pair for every
combination of collaborator outcomes, by construction), and each
internal failure degrades to the fallback: when every tag source fails
the result is exactly the modification-time fallback (wall clock when
even `stat` failed) with an absent coordinate, and partial GPS data
(no longitude tag) always yields an absent coordinate rather than an
error. -/
theorem extractor_totality (env env2 : ExtractEnv)
    (h : allTagSourcesFail env)
    (h2 : (acquireTags env2).gpsLongitude = none) :
    extract_exif_date_and_gps env = (env.mtime.getD env.now, none) ∧
    (extract_exif_date_and_gps env2).2 = none := by
  constructor
  · unfold extract_exif_date_and_gps
    rw [acquireTags_allFail env h]
    cases hm : env.mtime <;> simp [hm, firstParsedDate, emptyTags]
  · unfold extract_exif_date_and_gps
    cases hl : (acquireTags env2).gpsLatitude <;> simp [hl, h2]

/-- Closed instance of `extractor_totality`: a file for which the PIL
open raises an unrecognized error and the raw read raises as well. -/
theorem extractor_totality_witness :
    extract_exif_date_and_gps
        ⟨".heic", true, true, PilOpen.failOther, none, some ⟨2021, 7, 4, 1, 2, 3⟩,
          ⟨2026, 1, 1, 0, 0, 0⟩⟩ =
      (⟨2021, 7, 4, 1, 2, 3⟩, none) ∧
    (extract_exif_date_and_gps
        ⟨".jpg", true, true, PilOpen.failOther,
          some ⟨none, none, none, some [(1, 1), (2, 1), (3, 1)], some "N", none, none⟩,
          none, ⟨2026, 1, 1, 0, 0, 0⟩⟩).2 = none := by
  have h := extractor_totality
    ⟨".heic", true, true, PilOpen.failOther, none, some ⟨2021, 7, 4, 1, 2, 3⟩,
      ⟨2026, 1, 1, 0, 0, 0⟩⟩
    ⟨".jpg", true, true, PilOpen.failOther,
      some ⟨none, none, none, some [(1, 1), (2, 1), (3, 1)], some "N", none, none⟩,
      none, ⟨2026, 1, 1, 0, 0, 0⟩⟩
    ⟨rfl, trivial⟩ (by decide)
  exact h

/-- C7 — date fallback exactness: when none of the three timestamp tags
of the acquired tag mapping parses as `YYYY:MM:DD HH:MM:SS` and the
last-modified time of the file is available, the extractor returns exactly
that last-modified time. -/
theorem date_fallback_is_mtime (env : ExtractEnv) (t : DateTime)
    (h1 : (acquireTags env).dateTimeOriginal.bind parseExifDate = none)
    (h2 : (acquireTags env).dateTimeDigitized.bind parseExifDate = none)
    (h3 : (acquireTags env).imageDateTime.bind parseExifDate = none)
    (hm : env.mtime = some t) :
    (extract_exif_date_and_gps env).1 = t := by
  have hd : firstParsedDate (acquireTags env) = none := by
    unfold firstParsedDate
    rw [h1]
    dsimp only
    rw [h2]
    dsimp only
    rw [h3]
  unfold extract_exif_date_and_gps
  simp only [hd, hm]

/-- Closed instance of `date_fallback_is_mtime`: the original-time tag
is present but carries an invalid month, the digitized tag carries a
malformed string, the generic tag is absent; the result is exactly the
modification time. -/
theorem date_fallback_is_mtime_witness :
    (extract_exif_date_and_gps
        ⟨".jpg", true, true, PilOpen.failOther,
          some ⟨some "2023:13:01 10:00:00", some "not a date", none,
            none, none, none, none⟩,
          some ⟨2020, 5, 1, 2, 3, 4⟩, ⟨2026, 1, 1, 0, 0, 0⟩⟩).1 =
      ⟨2020, 5, 1, 2, 3, 4⟩ :=
  date_fallback_is_mtime
    ⟨".jpg", true, true, PilOpen.failOther,
      some ⟨some "2023:13:01 10:00:00", some "not a date", none,
        none, none, none, none⟩,
      some ⟨2020, 5, 1, 2, 3, 4⟩, ⟨2026, 1, 1, 0, 0, 0⟩⟩
    ⟨2020, 5, 1, 2, 3, 4⟩ (by decide) (by decide) (by decide) rfl

/-- Python whitespace for `str.strip()`. -/
def isPySpace (c : Char) : Bool :=
  c = ' ' || c = '\t' || c = '\n' || c = '\r' || c = '\x0b' || c = '\x0c'

/-- Python `str.strip()`: drop whitespace from both ends. -/
def pyStrip (s : String) : String :=
  String.mk (((s.data.dropWhile isPySpace).reverse.dropWhile isPySpace).reverse)

/-- Embedding of `slugify_folder_name`: keep alphanumerics, space,
hyphen and underscore, then strip.  `Char.isAlphanum` models the ASCII
fragment of Python `str.isalnum`; the claims under study do not involve
non-ASCII country labels. -/
def slugify_folder_name (s : String) : String :=
  pyStrip (String.mk (s.data.filter fun c =>
    c.isAlphanum || c = ' ' || c = '-' || c = '_'))

/-- Candidate collision name `f"\x7bbase\x7d-\x7bi\x7d\x7bext\x7d"`. -/
def candName (stem ext : String) (i : Nat) : String :=
  stem ++ "-" ++ natDigits i ++ ext

/-- The collision `while` loop (lines 375-377): starting from counter
`i`, advance while the candidate name exists on disk.  The fuel
`disk.length + 1` used below always suffices, because candidate names
with distinct counters are distinct strings, so among `disk.length + 1`
successive candidates at least one is not in the listing — the source
loop terminates for the same reason. -/
def nextFreeIdxGo (disk : List String) (stem ext : String) : Nat → Nat → Nat
  | 0, i => i
  | fuel + 1, i =>
    if candName stem ext i ∈ disk then nextFreeIdxGo disk stem ext fuel (i + 1)
    else i

def nextFreeIdx (disk : List String) (stem ext : String) : Nat :=
  nextFreeIdxGo disk stem ext (disk.length + 1) 1

/-- Destination filename for one record (lines 370-378): the natural
name when it does not exist in the target directory listing, else the
first free suffixed candidate counting from 1. -/
def planTargetName (disk : List String) (stem ext : String) : String :=
  if stem ++ ext ∈ disk then candName stem ext (nextFreeIdx disk stem ext)
  else stem ++ ext

/-- Planned destination names of a sequence of records mapping to the
same target directory within one run.  The planning loop (lines
350-398) only reads the directory (`.exists()`); no file is created
until the separate execution loop after planning, so every record is
planned against the same on-disk listing. -/
def planRun (disk : List String) (recs : List (String × String)) : List String :=
  recs.map fun r => planTargetName disk r.1 r.2

/-- C1 counterexample — with the target folder already containing
`IMG_0001.jpg`, planning two further records mapping to the same folder
and filename in the same run yields `IMG_0001-1.jpg` for BOTH: the
collision check consults only names existing on disk, and paths planned
earlier in the run are not yet on disk, so the third record does not
get `IMG_0001-2.jpg` as the claim asserts. -/
theorem collision_third_record_cex :
    planRun ["IMG_0001.jpg"] [("IMG_0001", ".jpg"), ("IMG_0001", ".jpg")] =
      ["IMG_0001-1.jpg", "IMG_0001-1.jpg"] ∧
    (planRun ["IMG_0001.jpg"]
        [("IMG_0001", ".jpg"), ("IMG_0001", ".jpg")]).getD 1 "" ≠
      "IMG_0001-2.jpg" := by
  refine ⟨by decide, by decide⟩

/-- C1 amended — collision avoidance against the on-disk listing only:
for a target folder already containing `IMG_0001.jpg`, planning a second
record mapping to that folder and filename yields `IMG_0001-1.jpg`, and
a third such record planned in the same run also yields
`IMG_0001-1.jpg`, because the counter (starting at 1 and incrementing
while the candidate exists) is checked against directory contents only
and previously planned but not yet executed paths are not on disk during
planning.  In general the planner returns the first candidate free on
disk: whenever the natural name collides and `stem-1.ext` is not on
disk, the planned name is `stem-1.ext`. -/
theorem collision_uses_disk_only :
    (planRun ["IMG_0001.jpg"] [("IMG_0001", ".jpg"), ("IMG_0001", ".jpg")] =
      ["IMG_0001-1.jpg", "IMG_0001-1.jpg"]) ∧
    ∀ (disk : List String) (stem ext : String),
      stem ++ ext ∈ disk → candName stem ext 1 ∉ disk →
      planTargetName disk stem ext = candName stem ext 1 := by
  refine ⟨by decide, ?_⟩
  intro disk stem ext h1 h2
  unfold planTargetName
  rw [if_pos h1]
  unfold nextFreeIdx
  simp only [nextFreeIdxGo, if_neg h2]

/-- Closed instance of `collision_uses_disk_only`. -/
theorem collision_uses_disk_only_witness :
    planTargetName ["IMG_0001.jpg"] "IMG_0001" ".jpg" =
      candName "IMG_0001" ".jpg" 1 :=
  collision_uses_disk_only.2 ["IMG_0001.jpg"] "IMG_0001" ".jpg"
    (by decide) (by decide)

/-- Result of planning one record in the `run` loop (lines 352-388),
instrumented with the cache state after the step and with flags
recording whether `get_country_for_coords` was invoked and whether it
made an external call. -/
structure PlanOutcome where
  folder : String
  target : String
  country : String
  cache : Cache
  resolverInvoked : Bool
  calledExternal : Bool
deriving DecidableEq

/-- Embedding of the per-file body of the planning loop in `run`:
two-level mode plans `Year-Month` and leaves the country empty;
otherwise the country is `NoLocation` or the resolved label, slugified,
and the folder is `Year-Month-Country`.  The target directory listing
`disk` is what the collision check reads. -/
def processRecord (twoLevel : Bool) (dist : DistFn)
    (rev : Rat × Rat → ReverseOutcome) (cache : Cache) (disk : List String)
    (date : DateTime) (gps : Option (Rat × Rat)) (stem ext : String) :
    PlanOutcome :=
  let year := pad4 date.year
  let month := pad2 date.month
  if twoLevel then
    let folder := year ++ "-" ++ month
    ⟨folder, folder ++ "/" ++ planTargetName disk stem ext, "", cache, false, false⟩
  else
    match gps with
    | none =>
      let country := slugify_folder_name "NoLocation"
      let folder := year ++ "-" ++ month ++ "-" ++ country
      ⟨folder, folder ++ "/" ++ planTargetName disk stem ext, country, cache,
        false, false⟩
    | some (la, lo) =>
      let r := get_country_for_coords dist la lo rev cache
      let country := slugify_folder_name r.country
      let folder := year ++ "-" ++ month ++ "-" ++ country
      ⟨folder, folder ++ "/" ++ planTargetName disk stem ext, country, r.cache,
        true, r.calledExternal⟩

/-- Cache state after planning a whole list of records. -/
def planCacheAfter (twoLevel : Bool) (dist : DistFn)
    (rev : Rat × Rat → ReverseOutcome) (disk : List String)
    (recs : List (DateTime × Option (Rat × Rat) × String × String))
    (cache : Cache) : Cache :=
  recs.foldl
    (fun c r => (processRecord twoLevel dist rev c disk r.1 r.2.1 r.2.2.1 r.2.2.2).cache)
    cache

/-- C10 — two-level mode frame effect: with two-level mode enabled, each
record is planned without ever invoking the geocode resolver or the
external call, its country field is the empty string even when GPS
coordinates are present, and its folder name is exactly
`Year-Month` (it depends only on the extracted year and month);
consequently planning any list of records leaves the geocode cache
unchanged. -/
theorem two_level_frame_effect (dist : DistFn)
    (rev : Rat × Rat → ReverseOutcome) (cache : Cache) (disk : List String)
    (date : DateTime) (gps : Option (Rat × Rat)) (stem ext : String)
    (recs : List (DateTime × Option (Rat × Rat) × String × String)) :
    processRecord true dist rev cache disk date gps stem ext =
      ⟨pad4 date.year ++ "-" ++ pad2 date.month,
        (pad4 date.year ++ "-" ++ pad2 date.month) ++ "/" ++
          planTargetName disk stem ext,
        "", cache, false, false⟩ ∧
    planCacheAfter true dist rev disk recs cache = cache := by
  constructor
  · rfl
  · induction recs generalizing cache with
    | nil => rfl
    | cons r t ih => exact ih cache

/-- Final normalisation step `country or "Unknown"` applied to an
optional label. -/
def finishLabel : Option String → String
  | some s => if s = "" then "Unknown" else s
  | none => "Unknown"

/-- Modelled from the claim C6 wording, for comparison with the code
path: the label is the first non-absent, non-empty candidate in the
fixed priority order — structured `country`, `country_name`,
`country_code`, then the free-form display address (the `address`
attribute, then `display_name`), then the string form of the response —
and `"Unknown"` when all are absent or empty or when the call raised. -/
def c6Chain (o : ReverseOutcome) : String :=
  match o with
  | ReverseOutcome.raised => "Unknown"
  | ReverseOutcome.returned none => "Unknown"
  | ReverseOutcome.returned (some l) =>
    let cands : List (Option String) :=
      (match l.raw with
       | some a => [a.country, a.country_name, a.country_code]
       | none => []) ++ [l.address, l.display_name, some l.strForm]
    match firstTruthy cands with
    | some s => s
    | none => "Unknown"

theorem pyOr_truthy (a b : Option String) :
    pyTruthy (pyOr a b) = (pyTruthy a || pyTruthy b) := by
  unfold pyOr
  by_cases h : pyTruthy a <;> simp [h]

theorem firstTruthy_append (xs ys : List (Option String)) :
    firstTruthy (xs ++ ys) =
      if pyTruthy (firstTruthy xs) then firstTruthy xs else firstTruthy ys := by
  induction xs with
  | nil => simp [firstTruthy, pyTruthy]
  | cons a t ih =>
    by_cases h : pyTruthy a <;> simp [firstTruthy, h, ih]

theorem firstTruthy_ne_empty (xs : List (Option String)) (s : String)
    (h : firstTruthy xs = some s) : s ≠ "" := by
  induction xs with
  | nil => exact absurd h (by simp [firstTruthy])
  | cons a t ih =>
    by_cases ha : pyTruthy a
    · rw [firstTruthy, if_pos ha] at h
      rw [h] at ha
      simpa [pyTruthy] using ha
    · rw [firstTruthy, if_neg ha] at h
      exact ih h

theorem firstTruthy_finish (xs : List (Option String)) :
    (match firstTruthy xs with
     | some s => s
     | none => "Unknown") = finishLabel (firstTruthy xs) := by
  cases hf : firstTruthy xs with
  | none => rfl
  | some s => simp [finishLabel, firstTruthy_ne_empty xs s hf]

theorem pyOr3_firstTruthy (a b c : Option String) :
    pyTruthy (pyOr (pyOr a b) c) = pyTruthy (firstTruthy [a, b, c]) ∧
    (pyTruthy (pyOr (pyOr a b) c) = true →
      pyOr (pyOr a b) c = firstTruthy [a, b, c]) := by
  by_cases h1 : pyTruthy a <;> by_cases h2 : pyTruthy b <;>
    by_cases h3 : pyTruthy c <;>
    (simp [pyOr, firstTruthy, h1, h2, h3]; all_goals simp [pyTruthy])

/-- The tail of the label chain (free-form address fields and string
form) coincides between the sequential-assignment form of the code and
the first-truthy-candidate form of the specification. -/
theorem extract_chain_aux (c0 addr dn : Option String) (sf : String)
    (xs : List (Option String))
    (hEq : pyTruthy c0 = pyTruthy (firstTruthy xs))
    (hSame : pyTruthy c0 = true → c0 = firstTruthy xs) :
    finishLabel (if pyTruthy (if pyTruthy c0 then c0 else pyOr addr dn) then
        (if pyTruthy c0 then c0 else pyOr addr dn)
      else some sf) =
    finishLabel (firstTruthy (xs ++ [addr, dn, some sf])) := by
  rw [firstTruthy_append]
  by_cases h0 : pyTruthy c0
  · have hf : pyTruthy (firstTruthy xs) = true := by rw [← hEq]; exact h0
    rw [if_pos h0, if_pos h0, if_pos hf, hSame h0]
  · have hf : ¬pyTruthy (firstTruthy xs) = true := by rw [← hEq]; exact h0
    rw [if_neg h0, if_neg hf]
    by_cases h1 : pyTruthy (pyOr addr dn)
    · rw [if_pos h1]
      have hor : (pyTruthy addr || pyTruthy dn) = true := by
        rw [← pyOr_truthy]; exact h1
      by_cases h2 : pyTruthy addr
      · rw [show pyOr addr dn = addr from by unfold pyOr; rw [if_pos h2]]
        rw [show firstTruthy [addr, dn, some sf] = addr from by
          rw [firstTruthy, if_pos h2]]
      · have h3 : pyTruthy dn = true := by
          rcases Bool.or_eq_true_iff.mp hor with h | h
          · exact absurd h h2
          · exact h
        rw [show pyOr addr dn = dn from by unfold pyOr; rw [if_neg h2]]
        rw [show firstTruthy [addr, dn, some sf] = dn from by
          rw [firstTruthy, if_neg h2, firstTruthy, if_pos h3]]
    · rw [if_neg h1]
      rw [Bool.not_eq_true, pyOr_truthy] at h1
      have h23 := Bool.or_eq_false_iff.mp h1
      rw [firstTruthy, if_neg (by simp [h23.1]), firstTruthy,
        if_neg (by simp [h23.2]), firstTruthy]
      by_cases hsf : sf = ""
      · rw [if_neg (by simp [pyTruthy, hsf])]
        simp [finishLabel, hsf, firstTruthy]
      · rw [if_pos (by simp [pyTruthy, hsf])]

/-- C6 — label-extraction priority chain: for every outcome of the
external reverse-geocode call, the label computed by the code equals the
fixed priority chain of the specification — structured `country`, then
`country_name`, then `country_code`, then the free-form display address
(`address` attribute, then `display_name`), then the string form of the
response, and `"Unknown"` exactly when all of these are absent or empty
or the call raised an exception. -/
theorem label_priority_chain (o : ReverseOutcome) :
    resolveResponse o = c6Chain o := by
  cases o with
  | raised => rfl
  | returned loc =>
    cases loc with
    | none => rfl
    | some l =>
      obtain ⟨raw, addr, dn, sf⟩ := l
      show extractCountry (some ⟨raw, addr, dn, sf⟩) = _
      unfold extractCountry c6Chain
      dsimp only
      rw [firstTruthy_finish]
      cases raw with
      | some a =>
        dsimp only
        exact extract_chain_aux _ addr dn sf
          [a.country, a.country_name, a.country_code]
          (pyOr3_firstTruthy a.country a.country_name a.country_code).1
          (pyOr3_firstTruthy a.country a.country_name a.country_code).2
      | none =>
        dsimp only
        exact extract_chain_aux none addr dn sf []
          (by simp [firstTruthy, pyTruthy]) (by simp [pyTruthy])

/-- Whitespace characters JSON allows between tokens. -/
def isWsChar (c : Char) : Bool := c = ' ' || c = '\t' || c = '\n' || c = '\r'

/-- Skip leading JSON whitespace. -/
def skipWs : List Char → List Char
  | [] => []
  | c :: r => if isWsChar c then skipWs r else c :: r

/-- Lowercase hexadecimal digit for `n < 16`. -/
def hexLowerDigit (n : Nat) : Char :=
  if n < 10 then Char.ofNat (48 + n) else Char.ofNat (87 + n)

/-- Value of one hexadecimal digit (either case), else `none`. -/
def hexVal (c : Char) : Option Nat :=
  if '0' ≤ c ∧ c ≤ '9' then some (c.toNat - 48)
  else if 'a' ≤ c ∧ c ≤ 'f' then some (c.toNat - 87)
  else if 'A' ≤ c ∧ c ≤ 'F' then some (c.toNat - 55)
  else none

/-- JSON string escapes accepted after a backslash (besides `u`). -/
def escChar : Char → Option Char
  | '\"' => some '\"'
  | '\\' => some '\\'
  | '/' => some '/'
  | 'b' => some '\x08'
  | 'f' => some '\x0c'
  | 'n' => some '\n'
  | 'r' => some '\r'
  | 't' => some '\t'
  | _ => none

/-- Encoding of one character inside a JSON string as
`json.dumps(..., ensure_ascii=False)` performs it: backslash, quote and
the named control characters get two-character escapes, other control
characters get a lowercase `\u00xx` escape, and everything else is
emitted verbatim. -/
def encodeChar (c : Char) : List Char :=
  if c = '\\' then ['\\', '\\']
  else if c = '\"' then ['\\', '\"']
  else if c = '\x08' then ['\\', 'b']
  else if c = '\x0c' then ['\\', 'f']
  else if c = '\n' then ['\\', 'n']
  else if c = '\r' then ['\\', 'r']
  else if c = '\t' then ['\\', 't']
  else if c.toNat < 32 then
    ['\\', 'u', '0', '0', hexLowerDigit (c.toNat / 16), hexLowerDigit (c.toNat % 16)]
  else [c]

def encodeStr : List Char → List Char
  | [] => []
  | c :: cs => encodeChar c ++ encodeStr cs

/-- A JSON string literal: quoted, escaped content. -/
def qstr (s : List Char) : List Char := '\"' :: (encodeStr s ++ ['\"'])

/-- One `"key": "value"` member line as `json.dumps` with `indent=2`
renders it (two spaces of indentation, colon-space separator). -/
def entryChars (k v : String) : List Char :=
  ' ' :: ' ' :: (qstr k.data ++ (':' :: ' ' :: qstr v.data))

/-- The member lines of a non-empty object: comma-newline separated,
closed by a newline and the closing brace. -/
def entriesChars : List (String × String) → List Char
  | [] => []
  | [(k, v)] => entryChars k v ++ ['\n', '\x7d']
  | (k, v) :: rest => entryChars k v ++ (',' :: '\n' :: entriesChars rest)

/-- Text produced by `json.dumps(cache, ensure_ascii=False, indent=2)`
for a string-to-string mapping: `\x7b\x7d` when empty, else the opening brace,
a newline, and the indented member lines. -/
def dumpsChars : List (String × String) → List Char
  | [] => ['\x7b', '\x7d']
  | l => '\x7b' :: '\n' :: entriesChars l

/-- JSON string body parser (after the opening quote): a closing quote
ends the string, a backslash introduces an escape (`\uXXXX` or one of
the named escapes), an unescaped control character is rejected as
`json.loads` does in strict mode, anything else is taken verbatim. -/
def parseStr : List Char → Option (List Char × List Char)
  | [] => none
  | c :: r =>
    if c = '\"' then some ([], r)
    else if c = '\\' then
      match r with
      | 'u' :: h1 :: h2 :: h3 :: h4 :: r2 =>
        match hexVal h1, hexVal h2, hexVal h3, hexVal h4 with
        | some a, some b, some c2, some d =>
          match parseStr r2 with
          | some (s, rest) =>
            some (Char.ofNat (((a * 16 + b) * 16 + c2) * 16 + d) :: s, rest)
          | none => none
        | _, _, _, _ => none
      | e :: r2 =>
        match escChar e with
        | some ec =>
          match parseStr r2 with
          | some (s, rest) => some (ec :: s, rest)
          | none => none
        | none => none
      | [] => none
    else if c.toNat < 32 then none
    else
      match parseStr r with
      | some (s, rest) => some (c :: s, rest)
      | none => none

/-- A quoted JSON string, returning the decoded string and the rest. -/
def parseJString (l : List Char) : Option (String × List Char) :=
  match l with
  | '\"' :: r =>
    match parseStr r with
    | some (s, rest) => some (String.mk s, rest)
    | none => none
  | _ => none

/-- Members of a JSON object after the opening brace (first member
expected at the head of the input): `"key" : "value"` pairs separated by
commas, closed by the closing brace.  The fuel only bounds the number of
members and is chosen large enough by the caller. -/
def parsePairs : Nat → List Char → Option (List (String × String) × List Char)
  | 0, _ => none
  | fuel + 1, l =>
    match parseJString l with
    | none => none
    | some (k, r1) =>
      match skipWs r1 with
      | [] => none
      | c :: r2 =>
        if c = ':' then
          match parseJString (skipWs r2) with
          | none => none
          | some (v, r3) =>
            match skipWs r3 with
            | [] => none
            | c2 :: r4 =>
              if c2 = ',' then
                match parsePairs fuel (skipWs r4) with
                | some (ps, rest) => some ((k, v) :: ps, rest)
                | none => none
              else if c2 = '\x7d' then some ([(k, v)], r4)
              else none
        else none

/-- A JSON object of string members, with leading whitespace. -/
def parseObj (l : List Char) : Option (List (String × String) × List Char) :=
  match skipWs l with
  | [] => none
  | c :: r =>
    if c = '\x7b' then
      match skipWs r with
      | [] => none
      | c2 :: r2 =>
        if c2 = '\x7d' then some ([], r2)
        else parsePairs (r.length + 1) (c2 :: r2)
    else none

/-- Model of `json.loads` restricted to the documents `save_cache`
writes: a single object with string keys and string values, possibly
surrounded by whitespace; anything else raises, modelled as `none`. -/
def loadsObj (l : List Char) : Option (List (String × String)) :=
  match parseObj l with
  | some (ps, rest) => if skipWs rest = [] then some ps else none
  | none => none

/-- CPython builds the object by assigning the parsed pairs into a fresh
dict in order (duplicate keys keep the first position, last value). -/
def pairsToDict (ps : List (String × String)) : Cache :=
  ps.foldl (fun m p => dictInsert m p.1 p.2) []

/-- Embedding of `save_cache` (lines 199-203): the text written to the
cache file (a write failure is swallowed and writes nothing, so the
written text, when any, is exactly this). -/
def save_cache (m : Cache) : String := String.mk (dumpsChars m)

/-- Embedding of `load_cache` (lines 190-196): `none` content models a
missing file; unparseable content yields the empty cache. -/
def load_cache (content : Option String) : Cache :=
  match content with
  | none => []
  | some text =>
    match loadsObj text.data with
    | some ps => pairsToDict ps
    | none => []


theorem hexVal_hexLowerDigit : ∀ n, n < 16 → hexVal (hexLowerDigit n) = some n := by
  decide

theorem parseStr_unicode (d1 d2 : Char) (X : List Char) :
    parseStr ('\\' :: 'u' :: '0' :: '0' :: d1 :: d2 :: X) =
      (match hexVal '0', hexVal '0', hexVal d1, hexVal d2 with
       | some a, some b, some c2, some d =>
         (match parseStr X with
          | some (s, r2) =>
            some (Char.ofNat (((a * 16 + b) * 16 + c2) * 16 + d) :: s, r2)
          | none => none)
       | _, _, _, _ => none) := rfl

/-- Decoding inverts encoding for JSON string bodies: parsing the
encoded characters followed by the closing quote recovers the original
characters and leaves the rest untouched. -/
theorem parseStr_encode (s rest : List Char) :
    parseStr (encodeStr s ++ ('\"' :: rest)) = some (s, rest) := by
  induction s with
  | nil =>
    rw [show encodeStr [] ++ ('\"' :: rest) = '\"' :: rest from rfl]
    rw [parseStr.eq_def]
    simp
  | cons c cs ih =>
    show parseStr ((encodeChar c ++ encodeStr cs) ++ ('\"' :: rest)) = _
    rw [List.append_assoc]
    unfold encodeChar
    by_cases h1 : c = '\\'
    · subst h1; simp [parseStr, escChar, ih]
    · rw [if_neg h1]
      by_cases h2 : c = '\"'
      · subst h2; simp [parseStr, escChar, ih]
      · rw [if_neg h2]
        by_cases h3 : c = '\x08'
        · subst h3; simp [parseStr, escChar, ih]
        · rw [if_neg h3]
          by_cases h4 : c = '\x0c'
          · subst h4; simp [parseStr, escChar, ih]
          · rw [if_neg h4]
            by_cases h5 : c = '\n'
            · subst h5; simp [parseStr, escChar, ih]
            · rw [if_neg h5]
              by_cases h6 : c = '\r'
              · subst h6; simp [parseStr, escChar, ih]
              · rw [if_neg h6]
                by_cases h7 : c = '\t'
                · subst h7; simp [parseStr, escChar, ih]
                · rw [if_neg h7]
                  by_cases h8 : c.toNat < 32
                  · rw [if_pos h8]
                    have hd1 : hexVal (hexLowerDigit (c.toNat / 16)) =
                        some (c.toNat / 16) := hexVal_hexLowerDigit _ (by omega)
                    have hd2 : hexVal (hexLowerDigit (c.toNat % 16)) =
                        some (c.toNat % 16) := hexVal_hexLowerDigit _ (by omega)
                    have h0 : hexVal '0' = some 0 := by decide
                    rw [show (['\\', 'u', '0', '0', hexLowerDigit (c.toNat / 16),
                        hexLowerDigit (c.toNat % 16)] ++ (encodeStr cs ++ '\"' :: rest)) =
                      '\\' :: 'u' :: '0' :: '0' :: hexLowerDigit (c.toNat / 16) ::
                        hexLowerDigit (c.toNat % 16) :: (encodeStr cs ++ '\"' :: rest)
                      from rfl]
                    rw [parseStr_unicode, h0, hd1, hd2]
                    dsimp only
                    rw [ih]
                    dsimp only
                    rw [show ((0 * 16 + 0) * 16 + c.toNat / 16) * 16 + c.toNat % 16 =
                      c.toNat from by omega]
                    rw [Char.ofNat_toNat]
                  · rw [if_neg h8]
                    rw [show ([c] ++ (encodeStr cs ++ '\"' :: rest)) =
                      c :: (encodeStr cs ++ '\"' :: rest) from rfl]
                    rw [parseStr.eq_def]
                    simp only [if_neg h2, if_neg h1, if_neg h8, ih]

/-- The separator-and-rest text following one member: closing for the
last member, comma-newline then the remaining members otherwise. -/
def entriesTail : List (String × String) → List Char
  | [] => ['\n', '\x7d']
  | l => ',' :: '\n' :: entriesChars l

theorem entriesChars_cons (k v : String) (t : List (String × String)) :
    entriesChars ((k, v) :: t) = entryChars k v ++ entriesTail t := by
  cases t <;> rfl

theorem skipWs_spaces (x : List Char) : skipWs (' ' :: ' ' :: x) = skipWs x := by
  simp [skipWs, isWsChar]

theorem skipWs_space1 (x : List Char) : skipWs (' ' :: x) = skipWs x := by
  simp [skipWs, isWsChar]

theorem skipWs_nl (x : List Char) : skipWs ('\n' :: x) = skipWs x := by
  simp [skipWs, isWsChar]

theorem skipWs_not_ws (c : Char) (x : List Char) (h : isWsChar c = false) :
    skipWs (c :: x) = c :: x := by
  simp [skipWs, h]

theorem string_mk_data (s : String) : String.mk s.data = s := rfl

theorem qstr_append (s : List Char) (w : List Char) :
    qstr s ++ w = '\"' :: (encodeStr s ++ ('\"' :: w)) := by
  simp [qstr]

theorem parseJString_qstr (k : String) (w : List Char) :
    parseJString (qstr k.data ++ w) = some (k, w) := by
  rw [qstr_append]
  simp only [parseJString]
  rw [parseStr_encode]

theorem skipWs_entry (k v : String) (z : List Char) :
    skipWs (entryChars k v ++ z) =
      qstr k.data ++ ((':' :: ' ' :: qstr v.data) ++ z) := by
  have h1 : entryChars k v ++ z =
      ' ' :: ' ' :: (qstr k.data ++ ((':' :: ' ' :: qstr v.data) ++ z)) := by
    simp [entryChars]
  rw [h1, skipWs_spaces]
  rw [qstr_append]
  rw [skipWs_not_ws _ _ (by decide)]


theorem parsePairs_entries :
    ∀ (t : List (String × String)) (k v : String) (fuel : Nat),
      t.length < fuel →
      parsePairs fuel (skipWs (entriesChars ((k, v) :: t))) = some ((k, v) :: t, []) := by
  intro t
  induction t with
  | nil =>
    intro k v fuel hf
    obtain ⟨f, rfl⟩ : ∃ f, fuel = f + 1 := ⟨fuel - 1, by omega⟩
    rw [entriesChars_cons, skipWs_entry]
    simp only [parsePairs]
    rw [parseJString_qstr]
    dsimp only
    rw [show (':' :: ' ' :: qstr v.data) ++ entriesTail [] =
      ':' :: ' ' :: (qstr v.data ++ entriesTail []) from by simp]
    rw [skipWs_not_ws ':' _ (by decide)]
    dsimp only
    rw [if_pos rfl]
    rw [skipWs_space1]
    rw [show skipWs (qstr v.data ++ entriesTail []) = qstr v.data ++ entriesTail []
      from by rw [qstr_append]; exact skipWs_not_ws _ _ (by decide)]
    rw [parseJString_qstr]
    dsimp only
    rw [show entriesTail ([] : List (String × String)) = ['\n', '\x7d'] from rfl]
    rw [show skipWs ['\n', '\x7d'] = ['\x7d'] from by decide]
    dsimp only
    rw [if_neg (by decide), if_pos rfl]
  | cons p t2 ih =>
    intro k v fuel hf
    obtain ⟨q, w⟩ := p
    obtain ⟨f, rfl⟩ : ∃ f, fuel = f + 1 := ⟨fuel - 1, by omega⟩
    rw [entriesChars_cons, skipWs_entry]
    simp only [parsePairs]
    rw [parseJString_qstr]
    dsimp only
    rw [show (':' :: ' ' :: qstr v.data) ++ entriesTail ((q, w) :: t2) =
      ':' :: ' ' :: (qstr v.data ++ entriesTail ((q, w) :: t2)) from by simp]
    rw [skipWs_not_ws ':' _ (by decide)]
    dsimp only
    rw [if_pos rfl]
    rw [skipWs_space1]
    rw [show skipWs (qstr v.data ++ entriesTail ((q, w) :: t2)) =
        qstr v.data ++ entriesTail ((q, w) :: t2)
      from by rw [qstr_append]; exact skipWs_not_ws _ _ (by decide)]
    rw [parseJString_qstr]
    dsimp only
    rw [show entriesTail ((q, w) :: t2) = ',' :: '\n' :: entriesChars ((q, w) :: t2)
      from rfl]
    rw [skipWs_not_ws ',' _ (by decide)]
    dsimp only
    rw [if_pos rfl]
    rw [skipWs_nl]
    rw [ih q w f (by simpa using Nat.lt_of_succ_lt_succ hf)]

theorem entriesChars_length (m : List (String × String)) :
    m.length ≤ (entriesChars m).length := by
  induction m with
  | nil => simp [entriesChars]
  | cons p t ih =>
    obtain ⟨k, v⟩ := p
    rw [entriesChars_cons]
    cases t with
    | nil => simp [entryChars, entriesTail]
    | cons q t2 =>
      have h2 : (entriesTail (q :: t2)).length = 2 + (entriesChars (q :: t2)).length := by
        simp [entriesTail]
        omega
      rw [List.length_append, h2]
      simp only [List.length_cons] at *
      have h1 : 2 ≤ (entryChars k v).length := by simp [entryChars]
      omega

theorem loadsObj_dumps (m : Cache) : loadsObj (dumpsChars m) = some m := by
  cases m with
  | nil => decide
  | cons p t =>
    obtain ⟨k, v⟩ := p
    have hobj : parseObj (dumpsChars ((k, v) :: t)) = some ((k, v) :: t, []) := by
      unfold parseObj
      rw [show dumpsChars ((k, v) :: t) = '\x7b' :: '\n' :: entriesChars ((k, v) :: t)
        from rfl]
      rw [skipWs_not_ws '\x7b' _ (by decide)]
      dsimp only
      rw [if_pos rfl]
      rw [skipWs_nl]
      rw [entriesChars_cons, skipWs_entry, qstr_append]
      dsimp only
      rw [if_neg (by decide)]
      rw [← qstr_append, ← skipWs_entry, ← entriesChars_cons]
      refine parsePairs_entries t k v _ ?_
      have := entriesChars_length ((k, v) :: t)
      simp only [List.length_cons] at *
      omega
    unfold loadsObj
    rw [hobj]
    rfl

theorem dictInsert_of_not_mem (m : Cache) (k v : String) (h : dictGet m k = none) :
    dictInsert m k v = m ++ [(k, v)] := by
  induction m with
  | nil => rfl
  | cons p t ih =>
    obtain ⟨k0, v0⟩ := p
    rw [dictGet] at h
    by_cases hk : k0 = k
    · rw [if_pos hk] at h
      exact absurd h (by simp)
    · rw [if_neg hk] at h
      simp [dictInsert, hk, ih h]

theorem dictGet_append (a b : Cache) (k : String) (h : dictGet a k = none) :
    dictGet (a ++ b) k = dictGet b k := by
  induction a with
  | nil => rfl
  | cons p t ih =>
    obtain ⟨k0, v0⟩ := p
    rw [dictGet] at h
    by_cases hk : k0 = k
    · rw [if_pos hk] at h
      exact absurd h (by simp)
    · rw [if_neg hk] at h
      simp only [List.cons_append, dictGet, if_neg hk]
      exact ih h

theorem foldl_dictInsert (ps : List (String × String)) :
    ∀ acc : Cache, (ps.map Prod.fst).Nodup →
      (∀ p ∈ ps, dictGet acc p.1 = none) →
      ps.foldl (fun m p => dictInsert m p.1 p.2) acc = acc ++ ps := by
  induction ps with
  | nil =>
    intro acc _ _
    simp
  | cons p t ih =>
    intro acc hnd hget
    obtain ⟨k, v⟩ := p
    simp only [List.foldl_cons]
    rw [dictInsert_of_not_mem acc k v (hget (k, v) (List.mem_cons_self _ _))]
    have hk_not : k ∉ t.map Prod.fst := by
      simp only [List.map_cons, List.nodup_cons] at hnd
      exact hnd.1
    rw [ih (acc ++ [(k, v)])
      (by simp only [List.map_cons, List.nodup_cons] at hnd; exact hnd.2) ?_]
    · simp
    · intro q hq
      rw [dictGet_append _ _ _ (hget q (List.mem_cons_of_mem _ hq))]
      have hne : ¬(k = q.1) := by
        intro he
        exact hk_not (he ▸ List.mem_map_of_mem Prod.fst hq)
      simp [dictGet, hne]

theorem pairsToDict_self (m : Cache) (h : (m.map Prod.fst).Nodup) :
    pairsToDict m = m := by
  unfold pairsToDict
  rw [foldl_dictInsert m [] h (by intro p _; rfl)]
  simp

/-- C8 — cache persistence round trip: for every cache mapping (keys
unique, as in a Python dict), writing it with `save_cache` and loading
the written text back with `load_cache` yields an equal mapping — the
same keys bound to the same values in the same order. -/
theorem save_then_load_roundtrip (m : Cache) (h : (m.map Prod.fst).Nodup) :
    load_cache (some (save_cache m)) = m := by
  unfold load_cache save_cache
  dsimp only
  rw [loadsObj_dumps]
  exact pairsToDict_self m h

/-- Closed instance of `save_then_load_roundtrip` on a two-entry
cache. -/
theorem save_then_load_roundtrip_witness :
    load_cache (some (save_cache
        [("48.856600,2.352200", "France"), ("1.000000,2.000000", "Spain")])) =
      [("48.856600,2.352200", "France"), ("1.000000,2.000000", "Spain")] :=
  save_then_load_roundtrip
    [("48.856600,2.352200", "France"), ("1.000000,2.000000", "Spain")] (by decide)
